import Mathlib

/-!
Verification development for the `orders-api` order repository
(`repository/order/redis.go`, `handler/order.go`, `model/order.go`).

The Redis store is embedded as a pure state: an association list for the
primary keyspace (string key to stored JSON value) plus a list for the
`"orders"` index set. go-redis commands become functions on that state,
with the wire-level distinction between a `redis.Nil` reply and other
errors kept explicit. Commands queued on a `TxPipeline` carry no result
until `Exec`, which is modelled by `queuedErr`.

Serialized records are JSON trees (`encoding/json` marshals the `Order`
struct to a field-named object; unmarshalling looks fields up by name,
leaves zero values for absent fields, and fails on type mismatches).
Time values (`*time.Time`) are abstracted to `Option Nat`; `uuid.UUID`
to `String`.
-/

set_option autoImplicit false

namespace OrdersApi

/-- JSON documents, as produced by `encoding/json` for the order model.
Numbers are naturals (order IDs, quantities, prices are unsigned in the
source; time values are abstracted to naturals). -/
inductive Json where
  | null : Json
  | num : Nat → Json
  | str : String → Json
  | arr : List Json → Json
  | obj : List (String × Json) → Json

/-- `model.LineItem`: item identifier (UUID, abstracted to a string),
quantity, unit price. -/
structure LineItem where
  itemID : String
  quantity : Nat
  price : Nat
deriving DecidableEq, Repr

/-- `model.Order`: identifier, customer identifier, line items, and the
three nullable timestamps (`*time.Time` becomes `Option Nat`). -/
structure Order where
  orderID : Nat
  customerID : String
  lineItems : List LineItem
  createdAt : Option Nat
  shippedAt : Option Nat
  completedAt : Option Nat
deriving DecidableEq, Repr

/-- `json.Marshal` of a nullable time: `nil` pointer marshals to `null`. -/
def encodeTime : Option Nat → Json
  | none => Json.null
  | some t => Json.num t

/-- `json.Marshal` of a `LineItem` (tags `item_id`, `quantity`, `price`). -/
def encodeLineItem (li : LineItem) : Json :=
  Json.obj [("item_id", Json.str li.itemID),
            ("quantity", Json.num li.quantity),
            ("price", Json.num li.price)]

/-- `json.Marshal` of an `Order` (tags from `model/order.go`). -/
def encodeOrder (o : Order) : Json :=
  Json.obj [("order_id", Json.num o.orderID),
            ("customer_id", Json.str o.customerID),
            ("line_items", Json.arr (o.lineItems.map encodeLineItem)),
            ("created_at", encodeTime o.createdAt),
            ("shipped_at", encodeTime o.shippedAt),
            ("completed_at", encodeTime o.completedAt)]

/-- Field lookup in a JSON object, as `json.Unmarshal` matches struct tags. -/
def jLookup (fields : List (String × Json)) (key : String) : Option Json :=
  (fields.find? (fun p => p.1 == key)).map (fun p => p.2)

/-- Unmarshal an unsigned integer field: absent leaves the zero value,
a present non-number is a type error. -/
def decodeNat : Option Json → Option Nat
  | none => some 0
  | some (Json.num n) => some n
  | some _ => none

/-- Unmarshal a string field: absent leaves the zero value. -/
def decodeStr : Option Json → Option String
  | none => some ""
  | some (Json.str s) => some s
  | some _ => none

/-- Unmarshal a `*time.Time` field: absent or `null` leaves a `nil` pointer. -/
def decodeTime : Option Json → Option (Option Nat)
  | none => some none
  | some Json.null => some none
  | some (Json.num t) => some (some t)
  | some _ => none

/-- Unmarshal one line item (all three fields must typecheck). -/
def decodeLineItem : Json → Option LineItem
  | Json.obj fs =>
    match decodeStr (jLookup fs "item_id"), decodeNat (jLookup fs "quantity"),
        decodeNat (jLookup fs "price") with
    | some i, some q, some p => some ⟨i, q, p⟩
    | _, _, _ => none
  | _ => none

/-- Unmarshal each element of a JSON array of line items; any element of
the wrong shape fails the whole slice. -/
def decodeItemList : List Json → Option (List LineItem)
  | [] => some []
  | j :: rest =>
    match decodeLineItem j, decodeItemList rest with
    | some li, some lis => some (li :: lis)
    | _, _ => none

/-- Unmarshal the `line_items` slice: absent or `null` leaves a `nil` slice. -/
def decodeLineItems : Option Json → Option (List LineItem)
  | none => some []
  | some Json.null => some []
  | some (Json.arr xs) => decodeItemList xs
  | some _ => none

/-- `json.Unmarshal` into `model.Order`: every present field must have the
expected shape, absent fields keep their zero values. -/
def decodeOrder : Json → Option Order
  | Json.obj fs =>
    match decodeNat (jLookup fs "order_id"), decodeStr (jLookup fs "customer_id"),
        decodeLineItems (jLookup fs "line_items"), decodeTime (jLookup fs "created_at"),
        decodeTime (jLookup fs "shipped_at"), decodeTime (jLookup fs "completed_at") with
    | some i, some c, some lis, some ca, some sa, some co =>
      some ⟨i, c, lis, ca, sa, co⟩
    | _, _, _, _, _, _ => none
  | _ => none

theorem decodeLineItem_encodeLineItem (li : LineItem) :
    decodeLineItem (encodeLineItem li) = some li := rfl

theorem decodeItemList_map_encode (lis : List LineItem) :
    decodeItemList (lis.map encodeLineItem) = some lis := by
  induction lis with
  | nil => rfl
  | cons li rest ih =>
    simp [decodeItemList, decodeLineItem_encodeLineItem, ih]

theorem decodeTime_encodeTime (t : Option Nat) :
    decodeTime (some (encodeTime t)) = some t := by
  cases t <;> rfl

/-- Serialization followed by deserialization is the identity on orders. -/
theorem decodeOrder_encodeOrder (o : Order) :
    decodeOrder (encodeOrder o) = some o := by
  cases o with
  | mk i c lis ca sa co =>
    show (match some i, some c,
        decodeLineItems (some (Json.arr (lis.map encodeLineItem))),
        decodeTime (some (encodeTime ca)), decodeTime (some (encodeTime sa)),
        decodeTime (some (encodeTime co)) with
      | some i, some c, some lis, some ca, some sa, some co =>
        some (⟨i, c, lis, ca, sa, co⟩ : Order)
      | _, _, _, _, _, _ => none) = some ⟨i, c, lis, ca, sa, co⟩
    rw [decodeTime_encodeTime, decodeTime_encodeTime, decodeTime_encodeTime]
    show (match some i, some c, decodeItemList (lis.map encodeLineItem),
        some ca, some sa, some co with
      | some i, some c, some lis, some ca, some sa, some co =>
        some (⟨i, c, lis, ca, sa, co⟩ : Order)
      | _, _, _, _, _, _ => none) = some ⟨i, c, lis, ca, sa, co⟩
    rw [decodeItemList_map_encode]

/-! ## Redis store state and go-redis command semantics -/

/-- The visible Redis state: the primary keyspace (first binding of a key
wins on lookup; operations keep keys unique) and the `"orders"` index set. -/
structure State where
  kv : List (String × Json)
  idx : List String

/-- First-binding lookup in an association list of stored values. -/
def lookupKV (l : List (String × Json)) (k : String) : Option Json :=
  (l.find? (fun p => p.1 == k)).map (fun p => p.2)

/-- `GET`-style lookup in the primary keyspace. -/
def kvGet (s : State) (k : String) : Option Json :=
  lookupKV s.kv k

/-- Blind value replacement for an existing key (the write half of
`SET key value XX`). -/
def kvSet (l : List (String × Json)) (k : String) (v : Json) :
    List (String × Json) :=
  l.map (fun p => if p.1 == k then (k, v) else p)

/-- Errors a go-redis command result can carry: the `redis.Nil` sentinel
(key absent or conditional `SET` not performed) versus any other error. -/
inductive RedisErr where
  | nilReply : RedisErr
  | other : String → RedisErr
deriving DecidableEq

/-- The commands the repository queues on a `TxPipeline`. -/
inductive RedisCmd where
  | setNX : String → Json → RedisCmd
  | sAdd : String → RedisCmd
  | del : String → RedisCmd
  | sRem : String → RedisCmd

/-- `Err()` of a command freshly queued on a `TxPipeline`: no command has
run yet, so there is no result and no error until `Exec`. -/
def queuedErr (_ : RedisCmd) : Option RedisErr := none

/-- Effect of one queued command when the transaction executes.
`SETNX` on an existing key and `SADD`/`SREM` of an already-present or
absent member are no-ops that do not fail the transaction. -/
def execCmd (s : State) : RedisCmd → State
  | RedisCmd.setNX k v =>
    match kvGet s k with
    | some _ => s
    | none => { s with kv := (k, v) :: s.kv }
  | RedisCmd.sAdd m =>
    if m ∈ s.idx then s else { s with idx := m :: s.idx }
  | RedisCmd.del k => { s with kv := s.kv.filter (fun p => p.1 ≠ k) }
  | RedisCmd.sRem m => { s with idx := s.idx.filter (fun x => x ≠ m) }

/-- `Exec` applies the queued commands atomically, in order. None of the
commands the repository queues can fail at the Redis level. -/
def exec (s : State) (cmds : List RedisCmd) : State :=
  cmds.foldl execCmd s

/-- `GET key`: an absent key is reported as the `redis.Nil` error. -/
def redisGet (s : State) (k : String) : Except RedisErr Json :=
  match kvGet s k with
  | none => Except.error RedisErr.nilReply
  | some v => Except.ok v

/-- `SET key value XX` (direct client call, not pipelined): when the key is
absent the condition fails and Redis replies null, but go-redis v9's
`BoolCmd.readReply` converts that nil reply to the value `false` with a
nil error, so `Err()` is nil either way; when the key is present the value
is overwritten. -/
def redisSetXX (s : State) (k : String) (v : Json) : State × Option RedisErr :=
  match kvGet s k with
  | none => (s, none)
  | some _ => ({ s with kv := kvSet s.kv k v }, none)

/-- `MGET keys...`: values aligned to the keys, `nil` for absent keys. -/
def redisMGet (s : State) (keys : List String) : List (Option Json) :=
  keys.map (kvGet s)

/-! ## The order repository (`repository/order/redis.go`) -/

/-- Errors a repository call returns: `ErrNotExist` or a wrapped generic
error (`fmt.Errorf`). -/
inductive RepoErr where
  | notExist : RepoErr
  | generic : String → RepoErr
deriving DecidableEq

/-- `orderIDKey`: the primary key derived from an order identifier. -/
def orderIDKey (id : Nat) : String := "order:" ++ toString id

/-- `RedisRepo.Insert`: marshal the order, queue `SETNX` of the primary key
and `SADD` of that key to the `"orders"` set on a `TxPipeline`, then `Exec`.
The two queue-time error checks of the source test `Err()` of commands that
have not run yet. -/
def insert (s : State) (o : Order) : State × Option RepoErr :=
  let data := encodeOrder o
  let c1 := RedisCmd.setNX (orderIDKey o.orderID) data
  match queuedErr c1 with
  | some _ => (s, some (RepoErr.generic "failed to insert set"))
  | none =>
    let c2 := RedisCmd.sAdd (orderIDKey o.orderID)
    match queuedErr c2 with
    | some _ => (s, some (RepoErr.generic "failed to add order to set"))
    | none => (exec s [c1, c2], none)

/-- `RedisRepo.FindByID`: `GET` the primary key; `redis.Nil` becomes
`ErrNotExist`, an unmarshal failure becomes a wrapped generic error. -/
def findByID (s : State) (id : Nat) : State × Except RepoErr Order :=
  match redisGet s (orderIDKey id) with
  | Except.error RedisErr.nilReply => (s, Except.error RepoErr.notExist)
  | Except.error (RedisErr.other _) =>
    (s, Except.error (RepoErr.generic "failed to get order"))
  | Except.ok value =>
    match decodeOrder value with
    | none => (s, Except.error (RepoErr.generic "failed to unmarshal order"))
    | some o => (s, Except.ok o)

/-- `RedisRepo.DeleteByID`: queue `DEL` of the primary key and `SREM` from
the `"orders"` set on a `TxPipeline`, then `Exec`. The `redis.Nil` check on
the queued `DEL` inspects a command that has not run yet (and `DEL` never
replies `redis.Nil`), so the `ErrNotExist` branch is unreachable. -/
def deleteByID (s : State) (id : Nat) : State × Option RepoErr :=
  let c1 := RedisCmd.del (orderIDKey id)
  match queuedErr c1 with
  | some RedisErr.nilReply => (s, some RepoErr.notExist)
  | some (RedisErr.other _) => (s, some (RepoErr.generic "get order"))
  | none =>
    let c2 := RedisCmd.sRem (orderIDKey id)
    match queuedErr c2 with
    | some _ => (s, some (RepoErr.generic "failed to remove from orders set"))
    | none => (exec s [c1, c2], none)

/-- `RedisRepo.Update`: marshal the order and `SET ... XX` the primary key
directly on the client. The `errors.Is(err, redis.Nil)` check intends to
map a missing key to `ErrNotExist`, but `SetXX`'s `BoolCmd` never carries
`redis.Nil`, so that branch is unreachable. -/
def update (s : State) (o : Order) : State × Option RepoErr :=
  let data := encodeOrder o
  match redisSetXX s (orderIDKey o.orderID) data with
  | (s1, some RedisErr.nilReply) => (s1, some RepoErr.notExist)
  | (s1, some (RedisErr.other _)) => (s1, some (RepoErr.generic "failed to update order"))
  | (s1, none) => (s1, none)

/-- `FindAllPage`: page size and scan cursor (`Offset`). -/
structure FindAllPage where
  size : Nat
  offset : Nat

/-- `FindResult`: the page of orders and the continuation cursor. -/
structure FindResult where
  orders : List Order
  cursor : Nat
deriving DecidableEq, Repr

/-- The body of `FindAll`'s loop over the `MGET` results: each element is
first cast with the unchecked type assertion `x.(string)` — a `nil` value
(absent key) panics, modelled as `none` — and then unmarshalled, a failure
returning the wrapped error for the whole page. -/
def collectOrders : List (Option Json) → Option (Except RepoErr (List Order))
  | [] => some (Except.ok [])
  | none :: _ => none
  | some v :: rest =>
    match decodeOrder v with
    | none => some (Except.error (RepoErr.generic "failed to unmarshal order"))
    | some o =>
      match collectOrders rest with
      | none => none
      | some (Except.error e) => some (Except.error e)
      | some (Except.ok os) => some (Except.ok (o :: os))

/-- `RedisRepo.FindAll`: `SSCAN` the `"orders"` set (the scan itself is the
store's cursor primitive, passed in as `scan`), and if any keys come back,
`MGET` and unmarshal them. With zero keys the literal
`FindResult{Orders: []}` is returned, whose `Cursor` field is the zero
value. The outer `Option` is `none` when the loop panics. -/
def findAll (s : State) (scan : Nat → Nat → List String × Nat)
    (page : FindAllPage) : Option (State × Except RepoErr FindResult) :=
  match scan page.offset page.size with
  | (keys, cursor) =>
    if keys.length = 0 then
      some (s, Except.ok { orders := [], cursor := 0 })
    else
      match collectOrders (redisMGet s keys) with
      | none => none
      | some (Except.error e) => some (s, Except.error e)
      | some (Except.ok orders) =>
        some (s, Except.ok { orders := orders, cursor := cursor })

/-! ## The status-transition step and the handler (`handler/order.go`) -/

/-- The `switch body.Status` step of `Order.UpdateByID`: mutate the found
order or reject with `400 Bad Request` (`none`). -/
def applyStatus (status : String) (now : Nat) (o : Order) : Option Order :=
  if status == "shipped" then
    if o.shippedAt.isSome then none
    else some { o with shippedAt := some now }
  else if status == "completed" then
    if o.completedAt.isSome || o.shippedAt.isNone then none
    else some { o with completedAt := some now }
  else none

/-- Modelled from the spec: the transition table of §4.3, written from the
spec's words as the reference for the refinement claim about
`applyStatus` (`shipped` accepted iff the shipped timestamp is unset;
`completed` accepted iff shipped is set and completed unset; anything
else rejected). -/
def specTransitionTable (status : String) (now : Nat) (o : Order) : Option Order :=
  if status = "shipped" then
    if o.shippedAt = none then some { o with shippedAt := some now } else none
  else if status = "completed" then
    if o.shippedAt ≠ none ∧ o.completedAt = none then
      some { o with completedAt := some now }
    else none
  else none

/-- `Order.UpdateByID` (after request parsing): find the order, apply the
status switch, and on acceptance write back through `RedisRepo.Update`.
The second component is the HTTP status of the response. -/
def handlerUpdateByID (s : State) (id : Nat) (status : String) (now : Nat) :
    State × Nat :=
  match findByID s id with
  | (s1, Except.error RepoErr.notExist) => (s1, 404)
  | (s1, Except.error (RepoErr.generic _)) => (s1, 500)
  | (s1, Except.ok theOrder) =>
    match applyStatus status now theOrder with
    | none => (s1, 400)
    | some o2 =>
      match update s1 o2 with
      | (s2, some _) => (s2, 500)
      | (s2, none) => (s2, 200)

/-! ## Helper lemmas about the store operations -/

theorem lookupKV_cons_of_eq (a : String × Json) (l : List (String × Json))
    (k : String) (h : a.1 = k) : lookupKV (a :: l) k = some a.2 := by
  unfold lookupKV
  rw [List.find?_cons_of_pos]
  · rfl
  · exact beq_iff_eq.mpr h

theorem lookupKV_cons_of_ne (a : String × Json) (l : List (String × Json))
    (k : String) (h : a.1 ≠ k) : lookupKV (a :: l) k = lookupKV l k := by
  unfold lookupKV
  rw [List.find?_cons_of_neg]
  simp [beq_iff_eq, h]

theorem lookupKV_filter_self (l : List (String × Json)) (k : String) :
    lookupKV (l.filter (fun p => p.1 ≠ k)) k = none := by
  induction l with
  | nil => rfl
  | cons a t ih =>
    by_cases h : a.1 = k
    · rw [List.filter_cons_of_neg (by simp [h])]
      exact ih
    · rw [List.filter_cons_of_pos (by simp [h]), lookupKV_cons_of_ne a _ k h]
      exact ih

theorem lookupKV_filter_other (l : List (String × Json)) (k k' : String)
    (h : k' ≠ k) :
    lookupKV (l.filter (fun p => p.1 ≠ k)) k' = lookupKV l k' := by
  induction l with
  | nil => rfl
  | cons a t ih =>
    by_cases ha : a.1 = k
    · rw [List.filter_cons_of_neg (by simp [ha]),
        lookupKV_cons_of_ne a t k' (by rw [ha]; exact fun he => h he.symm)]
      exact ih
    · rw [List.filter_cons_of_pos (by simp [ha])]
      by_cases ha' : a.1 = k'
      · rw [lookupKV_cons_of_eq a _ k' ha', lookupKV_cons_of_eq a t k' ha']
      · rw [lookupKV_cons_of_ne a _ k' ha', lookupKV_cons_of_ne a t k' ha']
        exact ih

theorem lookupKV_kvSet_isSome (l : List (String × Json)) (k k' : String)
    (v : Json) :
    (lookupKV (kvSet l k v) k').isSome = (lookupKV l k').isSome := by
  induction l with
  | nil => rfl
  | cons a t ih =>
    show (lookupKV ((if a.1 == k then (k, v) else a) :: kvSet t k v) k').isSome
      = (lookupKV (a :: t) k').isSome
    by_cases ha : a.1 = k
    · rw [if_pos (beq_iff_eq.mpr ha)]
      by_cases ha' : k = k'
      · rw [lookupKV_cons_of_eq (k, v) _ k' ha',
          lookupKV_cons_of_eq a t k' (ha.trans ha')]
        rfl
      · rw [lookupKV_cons_of_ne (k, v) _ k' ha',
          lookupKV_cons_of_ne a t k' (fun he => ha' ((ha.symm.trans he)))]
        exact ih
    · rw [if_neg (by simp [beq_iff_eq, ha])]
      by_cases ha' : a.1 = k'
      · rw [lookupKV_cons_of_eq a _ k' ha', lookupKV_cons_of_eq a t k' ha']
      · rw [lookupKV_cons_of_ne a _ k' ha', lookupKV_cons_of_ne a t k' ha']
        exact ih

theorem kvGet_sAdd (s : State) (m k : String) :
    kvGet (execCmd s (RedisCmd.sAdd m)) k = kvGet s k := by
  by_cases h : m ∈ s.idx <;> simp [execCmd, h, kvGet]

theorem findByID_fst (s : State) (id : Nat) : (findByID s id).1 = s := by
  unfold findByID
  cases redisGet s (orderIDKey id) with
  | error e => cases e <;> rfl
  | ok v =>
    show (match decodeOrder v with
      | none => (s, Except.error (RepoErr.generic "failed to unmarshal order"))
      | some o => (s, Except.ok o)).1 = s
    cases decodeOrder v <;> rfl

/-- The §3 invariant: the `"orders"` index set's membership equals the set
of primary keys that currently exist. -/
def storeInv (s : State) : Prop :=
  ∀ k : String, k ∈ s.idx ↔ (kvGet s k).isSome = true

theorem insert_snd (s : State) (o : Order) : (insert s o).2 = none := rfl

theorem insert_fst (s : State) (o : Order) :
    (insert s o).1 = execCmd
      (execCmd s (RedisCmd.setNX (orderIDKey o.orderID) (encodeOrder o)))
      (RedisCmd.sAdd (orderIDKey o.orderID)) := rfl

theorem execCmd_setNX_dup (s : State) (k : String) (v w : Json)
    (hg : kvGet s k = some w) : execCmd s (RedisCmd.setNX k v) = s := by
  simp [execCmd, kvGet] at *
  simp [hg]

theorem execCmd_setNX_fresh (s : State) (k : String) (v : Json)
    (hg : kvGet s k = none) :
    execCmd s (RedisCmd.setNX k v) = { s with kv := (k, v) :: s.kv } := by
  simp [execCmd, kvGet] at *
  simp [hg]

theorem insert_kv_dup (s : State) (o : Order) (w : Json)
    (hg : kvGet s (orderIDKey o.orderID) = some w) :
    kvGet (insert s o).1 (orderIDKey o.orderID)
      = kvGet s (orderIDKey o.orderID) := by
  rw [insert_fst, execCmd_setNX_dup s _ _ w hg, kvGet_sAdd]

theorem insert_kv_fresh (s : State) (o : Order)
    (hg : kvGet s (orderIDKey o.orderID) = none) :
    kvGet (insert s o).1 (orderIDKey o.orderID) = some (encodeOrder o) := by
  rw [insert_fst, kvGet_sAdd, execCmd_setNX_fresh s _ _ hg]
  show lookupKV ((orderIDKey o.orderID, encodeOrder o) :: s.kv) _ = _
  rw [lookupKV_cons_of_eq _ _ _ rfl]

theorem update_eq_of_none (s : State) (o : Order)
    (hg : kvGet s (orderIDKey o.orderID) = none) :
    update s o = (s, none) := by
  simp [update, redisSetXX, hg]

theorem update_eq_of_some (s : State) (o : Order) (w : Json)
    (hg : kvGet s (orderIDKey o.orderID) = some w) :
    update s o
      = ({ s with kv := kvSet s.kv (orderIDKey o.orderID) (encodeOrder o) },
         none) := by
  simp [update, redisSetXX, hg]

theorem deleteByID_eq (s : State) (id : Nat) :
    deleteByID s id
      = ({ kv := s.kv.filter (fun p => p.1 ≠ orderIDKey id),
           idx := s.idx.filter (fun x => x ≠ orderIDKey id) }, none) := rfl

theorem execCmd_sAdd_mem (s : State) (m : String) (hm : m ∈ s.idx) :
    execCmd s (RedisCmd.sAdd m) = s := by
  simp [execCmd, hm]

theorem execCmd_sAdd_not_mem (s : State) (m : String) (hm : m ∉ s.idx) :
    execCmd s (RedisCmd.sAdd m) = { s with idx := m :: s.idx } := by
  simp [execCmd, hm]

theorem findAll_fst (s : State) (scan : Nat → Nat → List String × Nat)
    (page : FindAllPage) (s2 : State) (r : Except RepoErr FindResult)
    (h : findAll s scan page = some (s2, r)) : s2 = s := by
  unfold findAll at h
  rcases hs : scan page.offset page.size with ⟨keys, cursor⟩
  rw [hs] at h
  dsimp only at h
  split at h
  · exact (congrArg Prod.fst (Option.some.inj h)).symm
  · split at h
    · exact Option.noConfusion h
    · exact (congrArg Prod.fst (Option.some.inj h)).symm
    · exact (congrArg Prod.fst (Option.some.inj h)).symm

theorem storeInv_insert (s : State) (o : Order) (h : storeInv s) :
    storeInv (insert s o).1 := by
  rw [insert_fst]
  cases hg : kvGet s (orderIDKey o.orderID) with
  | some v =>
    rw [execCmd_setNX_dup s _ _ v hg]
    have hmem : orderIDKey o.orderID ∈ s.idx :=
      (h (orderIDKey o.orderID)).mpr (by rw [hg]; rfl)
    rw [execCmd_sAdd_mem s _ hmem]
    exact h
  | none =>
    rw [execCmd_setNX_fresh s _ _ hg]
    have hmem : orderIDKey o.orderID ∉ s.idx := by
      intro hm
      have hs := (h (orderIDKey o.orderID)).mp hm
      rw [hg] at hs
      exact Bool.noConfusion hs
    rw [execCmd_sAdd_not_mem
      { kv := (orderIDKey o.orderID, encodeOrder o) :: s.kv, idx := s.idx } _ hmem]
    intro k
    show k ∈ orderIDKey o.orderID :: s.idx ↔
      (lookupKV ((orderIDKey o.orderID, encodeOrder o) :: s.kv) k).isSome = true
    by_cases hk : k = orderIDKey o.orderID
    · rw [hk, lookupKV_cons_of_eq _ _ _ rfl]
      simp [List.mem_cons]
    · rw [lookupKV_cons_of_ne _ _ _ (fun he => hk he.symm), List.mem_cons]
      have hiff : k ∈ s.idx ↔ (lookupKV s.kv k).isSome = true := h k
      rw [← hiff]
      simp [hk]

theorem storeInv_update (s : State) (o : Order) (h : storeInv s) :
    storeInv (update s o).1 := by
  cases hg : kvGet s (orderIDKey o.orderID) with
  | none => rw [update_eq_of_none s o hg]; exact h
  | some v =>
    rw [update_eq_of_some s o v hg]
    intro k
    show k ∈ s.idx ↔ (lookupKV (kvSet s.kv (orderIDKey o.orderID) (encodeOrder o)) k).isSome = true
    rw [lookupKV_kvSet_isSome]
    exact h k

theorem storeInv_delete (s : State) (id : Nat) (h : storeInv s) :
    storeInv (deleteByID s id).1 := by
  rw [deleteByID_eq]
  intro k
  show k ∈ s.idx.filter (fun x => x ≠ orderIDKey id) ↔
    (lookupKV (s.kv.filter (fun p => p.1 ≠ orderIDKey id)) k).isSome = true
  by_cases hk : k = orderIDKey id
  · rw [hk, lookupKV_filter_self]
    constructor
    · intro hm
      have hne := (List.mem_filter.mp hm).2
      simp at hne
    · intro hs
      exact Bool.noConfusion hs
  · rw [lookupKV_filter_other _ _ _ hk]
    constructor
    · intro hm
      exact (h k).mp (List.mem_filter.mp hm).1
    · intro hs
      exact List.mem_filter.mpr ⟨(h k).mpr hs, by simp [hk]⟩

/-! ## Concrete sample data for witnesses and counterexamples -/

def sampleItem : LineItem := { itemID := "item-1", quantity := 2, price := 500 }

def sampleOrder : Order :=
  { orderID := 1001, customerID := "customer-1", lineItems := [sampleItem],
    createdAt := some 10, shippedAt := none, completedAt := none }

def sampleOrder2 : Order := { sampleOrder with customerID := "customer-2" }

def sampleState : State :=
  { kv := [(orderIDKey 1001, encodeOrder sampleOrder)], idx := [orderIDKey 1001] }

def freshOrder : Order := { sampleOrder with orderID := 2002 }

/-! ## Claims -/

/-- C1, counterexample: with order 1001 already stored, `Insert` of a
different order with the same identifier reports success (`nil` error), so
the claim that a duplicate insert always fails with `AlreadyExists` and
never reports success is false on the code: the `SETNX` result inside the
transaction is never inspected. -/
theorem c1_duplicate_insert_cex :
    (kvGet sampleState (orderIDKey sampleOrder2.orderID)).isSome = true ∧
    (insert sampleState sampleOrder2).2 = none := ⟨rfl, rfl⟩

/-- C1, amended: for every order whose identifier already exists in the
store, `Insert` leaves the originally stored record unmodified (the
`SETNX` does not overwrite) but reports success; no duplicate-order error
is surfaced. -/
theorem c1_duplicate_insert (s : State) (o : Order) (w : Json)
    (hg : kvGet s (orderIDKey o.orderID) = some w) :
    (insert s o).2 = none ∧
    kvGet (insert s o).1 (orderIDKey o.orderID) = some w := by
  refine ⟨insert_snd s o, ?_⟩
  rw [insert_kv_dup s o w hg]
  exact hg

/-- C1, witness for the amended claim at the concrete duplicate input. -/
theorem c1_duplicate_insert_witness :
    (insert sampleState sampleOrder2).2 = none ∧
    kvGet (insert sampleState sampleOrder2).1 (orderIDKey sampleOrder2.orderID)
      = some (encodeOrder sampleOrder) :=
  c1_duplicate_insert sampleState sampleOrder2 (encodeOrder sampleOrder) rfl

/-- C2: evaluating `DeleteByID` at the failing input (identifier 7 on an
empty store). The code returns success (`nil`) instead of the
`OrderNotFound` the claim requires: the `redis.Nil` check inspects a
command merely queued on the pipeline, whose `Err()` is still `nil`, and
`DEL` never replies `redis.Nil` anyway. The store is left untouched. -/
theorem c2_delete_missing_eval :
    deleteByID { kv := [], idx := [] } 7 = ({ kv := [], idx := [] }, none) := rfl

/-- Scan oracle for the C3 counterexample: a legal `SSCAN` step that
returns no members but a nonzero continuation cursor. -/
def c3scan : Nat → Nat → List String × Nat := fun _ _ => ([], 5)

/-- C3, counterexample: the scan returns zero keys with next cursor 5, yet
`FindAll` returns cursor 0 (the zero value of the `FindResult` literal),
so the claim that the nonzero cursor is passed through is false. -/
theorem c3_zero_keys_cex :
    findAll { kv := [], idx := [] } c3scan { size := 50, offset := 0 }
      = some ({ kv := [], idx := [] },
        Except.ok { orders := [], cursor := 0 }) ∧
    (c3scan 0 50).2 ≠ 0 :=
  ⟨rfl, by decide⟩

/-- C3, amended: whenever the underlying set scan returns zero member
keys, `FindAll` returns an empty order list together with cursor 0,
regardless of the scan's next cursor — the nonzero continuation cursor is
discarded, so a caller may terminate before the full set is traversed. -/
theorem c3_zero_keys (s : State) (scan : Nat → Nat → List String × Nat)
    (page : FindAllPage) (h : (scan page.offset page.size).1 = []) :
    findAll s scan page = some (s, Except.ok { orders := [], cursor := 0 }) := by
  unfold findAll
  rcases hs : scan page.offset page.size with ⟨keys, cursor⟩
  rw [hs] at h
  dsimp only at h ⊢
  subst h
  rfl

/-- C3, witness for the amended claim at a concrete input. -/
theorem c3_zero_keys_witness :
    findAll sampleState c3scan { size := 50, offset := 0 }
      = some (sampleState, Except.ok { orders := [], cursor := 0 }) :=
  c3_zero_keys sampleState c3scan { size := 50, offset := 0 } rfl

/-- C4: the status-transition step of `UpdateByID` coincides with the
§4.3 table: `shipped` is accepted iff the shipped timestamp is unset (and
sets it to the current time), `completed` is accepted iff the shipped
timestamp is set and the completed timestamp unset (and sets it), and any
other status is rejected. -/
theorem c4_transition_table (status : String) (now : Nat) (o : Order) :
    applyStatus status now o = specTransitionTable status now o := by
  unfold applyStatus specTransitionTable
  simp only [beq_iff_eq]
  by_cases h1 : status = "shipped"
  · simp only [if_pos h1]
    cases o.shippedAt <;> simp
  · rw [if_neg h1, if_neg h1]
    by_cases h2 : status = "completed"
    · simp only [if_pos h2]
      cases o.shippedAt <;> cases o.completedAt <;> simp
    · rw [if_neg h2, if_neg h2]

/-- C5: for every order whose identifier is not yet present, `Insert`
followed by `FindByID` with the same identifier (no intervening
operations) returns the inserted order: serialization followed by
deserialization is the identity on the order entity. -/
theorem c5_insert_findByID (s : State) (o : Order)
    (hg : kvGet s (orderIDKey o.orderID) = none) :
    (findByID (insert s o).1 o.orderID).2 = Except.ok o := by
  have hkv := insert_kv_fresh s o hg
  unfold findByID redisGet
  rw [hkv]
  dsimp only
  rw [decodeOrder_encodeOrder]

/-- C5, witness at a concrete fresh order. -/
theorem c5_insert_findByID_witness :
    (findByID (insert sampleState freshOrder).1 freshOrder.orderID).2
      = Except.ok freshOrder :=
  c5_insert_findByID sampleState freshOrder rfl

/-- C6: every repository operation — `Insert`, `Update`, `DeleteByID`,
`FindByID`, `FindAll` — preserves the invariant that the `"orders"` index
set's membership equals the set of primary keys currently existing in the
primary keyspace. -/
theorem c6_index_invariant (s : State) (o : Order) (id : Nat)
    (h : storeInv s) :
    storeInv (insert s o).1 ∧ storeInv (update s o).1 ∧
    storeInv (deleteByID s id).1 ∧ storeInv (findByID s id).1 ∧
    (∀ (scan : Nat → Nat → List String × Nat) (page : FindAllPage)
      (s2 : State) (r : Except RepoErr FindResult),
      findAll s scan page = some (s2, r) → storeInv s2) := by
  refine ⟨storeInv_insert s o h, storeInv_update s o h, storeInv_delete s id h,
    ?_, ?_⟩
  · rw [findByID_fst]
    exact h
  · intro scan page s2 r hfa
    rw [findAll_fst s scan page s2 r hfa]
    exact h

/-- C6, witness: the invariant is preserved from the empty store. -/
theorem c6_index_invariant_witness :
    storeInv (insert { kv := [], idx := [] } sampleOrder).1 ∧
    storeInv (deleteByID { kv := [], idx := [] } 7).1 := by
  have h := c6_index_invariant { kv := [], idx := [] } sampleOrder 7
    (by intro k; simp [kvGet, lookupKV])
  exact ⟨h.1, h.2.2.1⟩

/-- C7: a status transition that the switch rejects never reaches the
store: `UpdateByID` leaves the state exactly as it was. -/
theorem c7_rejected_no_write (s : State) (id : Nat) (status : String)
    (now : Nat) (o : Order) (hfind : (findByID s id).2 = Except.ok o)
    (hrej : applyStatus status now o = none) :
    (handlerUpdateByID s id status now).1 = s := by
  have hpair : findByID s id = (s, Except.ok o) := by
    rw [Prod.ext_iff]
    exact ⟨findByID_fst s id, hfind⟩
  unfold handlerUpdateByID
  rw [hpair]
  dsimp only
  rw [hrej]

/-- Order already shipped, used to exercise a rejected transition. -/
def shippedOrder : Order := { sampleOrder with shippedAt := some 20 }

/-- Store holding the already-shipped order. -/
def shippedState : State :=
  { kv := [(orderIDKey 1001, encodeOrder shippedOrder)], idx := [orderIDKey 1001] }

/-- C7, witness: requesting `shipped` again on an already-shipped order is
rejected and the store is unchanged. -/
theorem c7_rejected_no_write_witness :
    (handlerUpdateByID shippedState 1001 "shipped" 30).1 = shippedState :=
  c7_rejected_no_write shippedState 1001 "shipped" 30 shippedOrder rfl rfl

/-- C8: evaluating `Update` at the failing input (order 1001 against an
empty store, primary key absent). The code returns success (`nil`) and
writes nothing, instead of the `OrderNotFound` the claim requires:
go-redis v9's `BoolCmd` converts the `SET ... XX` nil reply to `false`
with a nil error, so the `errors.Is(err, redis.Nil)` branch in
`RedisRepo.Update` is dead. The blind-overwrite half of the claim for a
present key does hold (`update_eq_of_some`). -/
theorem c8_update_missing_eval :
    update { kv := [], idx := [] } sampleOrder
      = ({ kv := [], idx := [] }, none) := rfl

theorem findByID_snd_none (s : State) (id : Nat)
    (hg : kvGet s (orderIDKey id) = none) :
    (findByID s id).2 = Except.error RepoErr.notExist := by
  unfold findByID redisGet
  rw [hg]

theorem findByID_snd_bad (s : State) (id : Nat) (v : Json)
    (hg : kvGet s (orderIDKey id) = some v) (hd : decodeOrder v = none) :
    (findByID s id).2 = Except.error (RepoErr.generic "failed to unmarshal order") := by
  unfold findByID redisGet
  rw [hg]
  dsimp only
  rw [hd]

theorem findByID_snd_good (s : State) (id : Nat) (v : Json) (o : Order)
    (hg : kvGet s (orderIDKey id) = some v) (hd : decodeOrder v = some o) :
    (findByID s id).2 = Except.ok o := by
  unfold findByID redisGet
  rw [hg]
  dsimp only
  rw [hd]

/-- C9: `FindByID` mutates nothing, returns `OrderNotFound` exactly when
the store reports the key absent, and surfaces a deserialization failure
as a generic repository error distinct from `OrderNotFound`. -/
theorem c9_findByID_errors (s : State) (id : Nat) :
    (findByID s id).1 = s ∧
    ((findByID s id).2 = Except.error RepoErr.notExist ↔
      kvGet s (orderIDKey id) = none) ∧
    (∀ v, kvGet s (orderIDKey id) = some v → decodeOrder v = none →
      (findByID s id).2 = Except.error (RepoErr.generic "failed to unmarshal order") ∧
      (findByID s id).2 ≠ Except.error RepoErr.notExist) := by
  refine ⟨findByID_fst s id, ⟨?_, findByID_snd_none s id⟩, ?_⟩
  · intro hne
    cases hg : kvGet s (orderIDKey id) with
    | none => rfl
    | some v =>
      exfalso
      cases hd : decodeOrder v with
      | none =>
        rw [findByID_snd_bad s id v hg hd] at hne
        exact RepoErr.noConfusion (Except.error.inj hne)
      | some o =>
        rw [findByID_snd_good s id v o hg hd] at hne
        exact Except.noConfusion hne
  · intro v hg hd
    refine ⟨findByID_snd_bad s id v hg hd, ?_⟩
    rw [findByID_snd_bad s id v hg hd]
    intro hne
    exact RepoErr.noConfusion (Except.error.inj hne)

/-- A store whose primary record for order 1 is not a JSON object, so
deserialization fails. -/
def junkState : State :=
  { kv := [(orderIDKey 1, Json.num 3)], idx := [orderIDKey 1] }

/-- C9, witness: absent key gives `OrderNotFound`; a malformed record
gives the generic unmarshal error. -/
theorem c9_findByID_errors_witness :
    (findByID sampleState 9999).2 = Except.error RepoErr.notExist ∧
    (findByID junkState 1).2
      = Except.error (RepoErr.generic "failed to unmarshal order") :=
  ⟨((c9_findByID_errors sampleState 9999).2.1).mpr rfl,
   ((c9_findByID_errors junkState 1).2.2 (Json.num 3) rfl rfl).1⟩

/-- Scan oracle for the C10 counterexample: two keys, the second of which
has no primary record. -/
def c10scan : Nat → Nat → List String × Nat := fun _ _ => (["k1", "k2"], 0)

/-- Store for the C10 counterexample: `k1` holds a malformed record and
`k2` is absent. -/
def c10state : State := { kv := [("k1", Json.num 3)], idx := ["k1", "k2"] }

/-- C10, counterexample: the multi-get returns `nil` for the scanned key
`k2`, yet `FindAll` does not panic — it returns the unmarshal error for
the earlier malformed value `k1`, because each loop iteration unmarshals
(and may return) before the next iteration's type assertion runs. -/
theorem c10_scan_missing_cex :
    kvGet c10state "k2" = none ∧
    findAll c10state c10scan { size := 50, offset := 0 }
      = some (c10state, Except.error (RepoErr.generic "failed to unmarshal order")) :=
  ⟨rfl, rfl⟩

theorem collectOrders_panic (s : State) (l1 l2 : List String) (k : String)
    (hk : kvGet s k = none)
    (hpre : ∀ k2 ∈ l1, ∃ v, kvGet s k2 = some v ∧ (decodeOrder v).isSome = true) :
    collectOrders (redisMGet s (l1 ++ k :: l2)) = none := by
  induction l1 with
  | nil =>
    show collectOrders (redisMGet s (k :: l2)) = none
    simp [redisMGet, hk, collectOrders]
  | cons a t ih =>
    obtain ⟨v, hv, hd⟩ := hpre a (List.mem_cons_self a t)
    obtain ⟨o, ho⟩ := Option.isSome_iff_exists.mp hd
    have ihx : collectOrders (redisMGet s (t ++ k :: l2)) = none :=
      ih (fun k2 hk2 => hpre k2 (List.mem_cons_of_mem a hk2))
    show collectOrders (redisMGet s (a :: (t ++ k :: l2))) = none
    simp [redisMGet] at ihx ⊢
    rw [hv]
    simp [collectOrders, ho, ihx]

/-- C10, amended: `FindAll` panics on the unchecked type assertion when
some scanned key has no primary record and every scanned key before it
holds a deserializable record; an earlier deserialization failure instead
aborts the call with an error before the assertion is reached. -/
theorem c10_scan_missing_panic (s : State)
    (scan : Nat → Nat → List String × Nat) (page : FindAllPage)
    (l1 l2 : List String) (k : String) (c : Nat)
    (hscan : scan page.offset page.size = (l1 ++ k :: l2, c))
    (hk : kvGet s k = none)
    (hpre : ∀ k2 ∈ l1, ∃ v, kvGet s k2 = some v ∧ (decodeOrder v).isSome = true) :
    findAll s scan page = none := by
  unfold findAll
  rw [hscan]
  dsimp only
  rw [if_neg (by simp)]
  rw [collectOrders_panic s l1 l2 k hk hpre]

/-- Store for the C10 witness: one well-formed record under `g1`. -/
def c10goodState : State :=
  { kv := [("g1", encodeOrder sampleOrder)], idx := ["g1", "missing"] }

/-- Scan oracle for the C10 witness: returns the good key then an absent
one. -/
def c10goodScan : Nat → Nat → List String × Nat := fun _ _ => (["g1", "missing"], 0)

/-- C10, witness for the amended claim: one good record followed by a
missing record makes `FindAll` panic. -/
theorem c10_scan_missing_panic_witness :
    findAll c10goodState c10goodScan { size := 50, offset := 0 } = none := by
  refine c10_scan_missing_panic c10goodState c10goodScan { size := 50, offset := 0 }
    ["g1"] [] "missing" 0 rfl rfl ?_
  intro k2 hk2
  rw [List.mem_singleton] at hk2
  subst hk2
  exact ⟨encodeOrder sampleOrder, rfl, by rw [decodeOrder_encodeOrder]; rfl⟩

end OrdersApi
